import Mathlib

/-
  Verification development for the coder_bot repository (src/claude.ts,
  src/codex.ts, src/agent.ts).  The TypeScript source is shallowly embedded:
  JavaScript runtime values are modelled by the JSVal inductive type, the
  regular expressions of DANGEROUS_BASH_PATTERNS by a small executable
  regex interpreter with JavaScript test semantics, and the stateful
  session objects (ClaudeProcess, CodexProcess) by explicit state records
  with pure step functions returning the emitted effects.
-/

namespace CoderBot

/-- Model of a JavaScript runtime value (the type of the untyped
    input payloads flowing through the permission machinery). -/
inductive JSVal where
  | undef
  | null
  | bool (b : Bool)
  | num (n : Int)
  | str (s : String)
  | obj (fields : List (String × JSVal))
  | arr (elems : List JSVal)

/-- JavaScript falsiness: undefined, null, false, 0 and the empty string
    are falsy; objects and arrays are always truthy. -/
def isFalsy : JSVal → Bool
  | .undef => true
  | .null => true
  | .bool b => !b
  | .num n => n == 0
  | .str s => s == ""
  | .obj _ => false
  | .arr _ => false

/-- The JavaScript test (typeof v === .object.): true for objects, arrays
    and null. -/
def isObjectType : JSVal → Bool
  | .null => true
  | .obj _ => true
  | .arr _ => true
  | _ => false

/-- Number of keys Object.keys would report (fields of an object,
    indices of an array; the sources only build objects with distinct
    keys). -/
def objKeyCount : JSVal → Nat
  | .obj fields => fields.length
  | .arr elems => elems.length
  | _ => 0

/-- Property lookup on an object field list (first binding wins; the
    parsed-JSON objects the program handles have distinct keys). -/
def lookupField : List (String × JSVal) → String → Option JSVal
  | [], _ => none
  | (k, v) :: rest, key => if k == key then some v else lookupField rest key

-- ─── JavaScript regular expressions (the subset used by claude.ts) ───

/-- JavaScript regex character class \s (whitespace). -/
def isJsSpace (c : Char) : Bool :=
  c == ' ' || c == '\t' || c == '\n' || c == '\r' || c == '\x0b' || c == '\x0c' ||
  c == '\u00a0' || c == '\u1680' ||
  ('\u2000' ≤ c && c ≤ '\u200a') ||
  c == '\u2028' || c == '\u2029' || c == '\u202f' || c == '\u205f' ||
  c == '\u3000' || c == '\ufeff'

/-- JavaScript regex word character (for the \b boundary): [A-Za-z0-9_]. -/
def isWordChar (c : Char) : Bool :=
  ('a' ≤ c && c ≤ 'z') || ('A' ≤ c && c ≤ 'Z') || ('0' ≤ c && c ≤ '9') || c == '_'

/-- JavaScript line terminators, which the dot metacharacter does not match. -/
def isLineTerm (c : Char) : Bool :=
  c == '\n' || c == '\r' || c == '\u2028' || c == '\u2029'

/-- Abstract syntax of the regular-expression subset appearing in
    DANGEROUS_BASH_PATTERNS: literals, the \s class, dot, star, plus,
    alternation, the anchors and the \b word boundary. -/
inductive RE where
  | eps
  | ch (c : Char)
  | cls (p : Char → Bool)
  | dot
  | seq (a b : RE)
  | alt (a b : RE)
  | star (r : RE)
  | plus (r : RE)
  | bos
  | eos
  | wordB

/-- Structural size of a regex, used to bound the matcher fuel. -/
def reSize : RE → Nat
  | .eps => 1
  | .ch _ => 1
  | .cls _ => 1
  | .dot => 1
  | .seq a b => reSize a + reSize b + 1
  | .alt a b => reSize a + reSize b + 1
  | .star r => reSize r + 1
  | .plus r => reSize r + 1
  | .bos => 1
  | .eos => 1
  | .wordB => 1

/-- Is the optional character a word character (none stands for the edge
    of the string)? -/
def isWordOpt : Option Char → Bool
  | none => false
  | some c => isWordChar c

/-- Fueled backtracking matcher in continuation-passing style.  prev is
    the character just before the current position (none at the start of
    the string), s the remaining input, and k the continuation receiving
    the updated context.  The star case only iterates after consuming at
    least one character, matching the semantics of greedy iteration for
    the pure existence test. -/
def reMatch : Nat → RE → Option Char → List Char → (Option Char → List Char → Bool) → Bool
  | 0, _, _, _, _ => false
  | fuel + 1, re, prev, s, k =>
    match re with
    | .eps => k prev s
    | .ch c =>
      match s with
      | [] => false
      | x :: xs => x == c && k (some x) xs
    | .cls p =>
      match s with
      | [] => false
      | x :: xs => p x && k (some x) xs
    | .dot =>
      match s with
      | [] => false
      | x :: xs => !isLineTerm x && k (some x) xs
    | .seq a b => reMatch fuel a prev s (fun p2 s2 => reMatch fuel b p2 s2 k)
    | .alt a b => reMatch fuel a prev s k || reMatch fuel b prev s k
    | .star r =>
      k prev s ||
        reMatch fuel r prev s (fun p2 s2 =>
          if s2.length < s.length then reMatch fuel (.star r) p2 s2 k else false)
    | .plus r => reMatch fuel (.seq r (.star r)) prev s k
    | .bos => prev.isNone && k prev s
    | .eos => s.isEmpty && k prev s
    | .wordB => (isWordOpt prev != isWordOpt s.head?) && k prev s

/-- Fuel sufficient for any match attempt of regex re on suffix s. -/
def reFuel (re : RE) (s : List Char) : Nat :=
  (reSize re + 2) * (s.length + 2)

/-- Try to match re at the current position only. -/
def reMatchHere (re : RE) (prev : Option Char) (s : List Char) : Bool :=
  reMatch (reFuel re s) re prev s (fun _ _ => true)

/-- Search for a match at this or any later start position (unanchored
    search, as RegExp.prototype.test performs on a regex without flags). -/
def reSearch (re : RE) (prev : Option Char) (s : List Char) : Bool :=
  match s with
  | [] => reMatchHere re prev []
  | x :: xs => reMatchHere re prev (x :: xs) || reSearch re (some x) xs

/-- JavaScript pattern.test(s): does re match some substring of s? -/
def reTest (re : RE) (s : String) : Bool :=
  reSearch re none s.toList

/-- Literal string as a regex. -/
def rstr (s : String) : RE :=
  s.toList.foldr (fun c acc => RE.seq (RE.ch c) acc) RE.eps

/-- Shorthand for the regex fragment \s* . -/
def wsStar : RE := RE.star (RE.cls isJsSpace)

/-- Shorthand for the regex fragment \s+ . -/
def wsPlus : RE := RE.plus (RE.cls isJsSpace)

/-- Sequencing of a list of regex fragments. -/
def reCat (rs : List RE) : RE :=
  rs.foldr RE.seq RE.eps

-- ─── Auto-approval strategy (claude.ts lines 645-708) ────────────────

/-- The fixed allow-list SAFE_TOOLS of read-only tools from claude.ts. -/
def SAFE_TOOLS : List String :=
  ["Read", "read",
   "Glob", "glob",
   "Grep", "grep",
   "Task", "task",
   "TaskCreate", "TaskUpdate", "TaskList", "TaskGet",
   "WebSearch", "WebFetch",
   "EnterPlanMode", "ExitPlanMode",
   "mcp__ide__getDiagnostics"]

/-- DANGEROUS_BASH_PATTERNS from claude.ts, each JavaScript regex
    transcribed into the RE syntax in source order. -/
def DANGEROUS_BASH_PATTERNS : List RE :=
  [reCat [.bos, wsStar, rstr "rm", .cls isJsSpace],
   reCat [.bos, wsStar, rstr "rm", wsPlus, .ch '-'],
   reCat [.bos, wsStar, rstr "sudo", .cls isJsSpace],
   reCat [.bos, wsStar, rstr "chmod", .cls isJsSpace],
   reCat [.bos, wsStar, rstr "chown", .cls isJsSpace],
   reCat [.bos, wsStar, rstr "mkfs"],
   reCat [.bos, wsStar, rstr "dd", .cls isJsSpace],
   reCat [.bos, wsStar, rstr "shutdown"],
   reCat [.bos, wsStar, rstr "reboot"],
   reCat [.bos, wsStar, rstr "kill", .cls isJsSpace],
   reCat [.bos, wsStar, rstr "killall", .cls isJsSpace],
   reCat [.bos, wsStar, rstr "pkill", .cls isJsSpace],
   reCat [.bos, wsStar, rstr "mv", .cls isJsSpace, .star .dot, .ch '/', wsStar, .eos],
   reCat [.ch '>', wsStar, rstr "/dev/"],
   reCat [.ch '|', wsStar, rstr "sh", .wordB],
   reCat [.ch '|', wsStar, rstr "bash", .wordB],
   reCat [rstr "curl", .star .dot, .ch '|', wsStar, .alt (rstr "sh") (rstr "bash"), .wordB],
   reCat [rstr "wget", .star .dot, .ch '|', wsStar, .alt (rstr "sh") (rstr "bash"), .wordB],
   reCat [rstr "git", wsPlus, rstr "push", wsPlus, .star .dot, rstr "--force"],
   reCat [rstr "git", wsPlus, rstr "reset", wsPlus, rstr "--hard"],
   reCat [rstr "npm", wsPlus, rstr "publish"],
   reCat [rstr "yarn", wsPlus, rstr "publish"]]

/-- Does the command string match some danger pattern? -/
def matchesDanger (command : String) : Bool :=
  DANGEROUS_BASH_PATTERNS.any (fun p => reTest p command)

/-- The command string the Bash branch of shouldAutoApprove extracts:
    (obj?.command as string) with the || fallback to the empty string.
    A truthy non-string command value would make the source throw at
    command.trim() and never occurs in the protocol; it is mapped to
    the empty string here. -/
def getCommand : JSVal → String
  | .obj fields =>
    match lookupField fields "command" with
    | some (.str s) => s
    | _ => ""
  | _ => ""

/-- The JavaScript test (!command.trim()): every character of the
    command is whitespace. -/
def trimIsEmpty (s : String) : Bool :=
  s.toList.all isJsSpace

/-- shouldAutoApprove from claude.ts lines 690-708: deny on empty input,
    allow the safe tools, allow Bash unless the command is blank or
    matches a danger pattern, deny everything else. -/
def shouldAutoApprove (toolName : String) (input : JSVal) : Bool :=
  if isFalsy input || (isObjectType input && objKeyCount input == 0) then
    false
  else if SAFE_TOOLS.contains toolName then
    true
  else if toolName == "Bash" || toolName == "bash" then
    if trimIsEmpty (getCommand input) then false
    else if matchesDanger (getCommand input) then false
    else true
  else
    false

example : matchesDanger "rm -rf node_modules" = true := by decide
example : matchesDanger "curl http://x | sh" = true := by decide
example : matchesDanger "git push --force origin main" = true := by decide
example : matchesDanger "ls -la" = false := by decide
example : shouldAutoApprove "Bash" (.obj [("command", .str "ls -la")]) = true := by decide
example : shouldAutoApprove "Read" (.obj [("file_path", .str "/a")]) = true := by decide
example : shouldAutoApprove "Write" (.obj [("file_path", .str "/a")]) = false := by decide

-- ─── Pending-permission registry (shared by both backends) ───────────

/-- One stored entry of the pendingPermissions map.  The sources store
    the PendingPermission fields together with a resolve closure; the
    runtime presence of that resolve property on the object is tracked
    by the hasResolveProp flag (claude.ts line 451, codex.ts line 463). -/
structure PendEntry where
  requestId : String
  toolName : String
  input : JSVal
  createdAt : Nat
  hasResolveProp : Bool

/-- Map.get on an insertion-ordered association list. -/
def mapGet (m : List (String × PendEntry)) (key : String) : Option PendEntry :=
  match m with
  | [] => none
  | (k, v) :: rest => if k == key then some v else mapGet rest key

/-- Map.delete. -/
def mapDelete (m : List (String × PendEntry)) (key : String) : List (String × PendEntry) :=
  m.filter (fun kv => kv.1 != key)

/-- Map.set: replace an existing binding in place, else append in
    insertion order. -/
def mapSet : List (String × PendEntry) → String → PendEntry → List (String × PendEntry)
  | [], key, v => [(key, v)]
  | kv :: rest, key, v =>
    if kv.1 == key then (key, v) :: rest else kv :: mapSet rest key v

/-- JavaScript a || b on modelled values. -/
def jsOr (a b : JSVal) : JSVal :=
  if isFalsy a then b else a

/-- A permission decision delivered to a resolve continuation
    (the PermissionResult union of claude.ts). -/
inductive PermDecision where
  | allow (updatedInput : JSVal)
  | deny (message : String)

-- ─── ClaudeProcess state (claude.ts) ─────────────────────────────────

/-- The mutable per-session fields of ClaudeProcess that the permission
    workflow and the consumer loop read and write. -/
structure ClaudeState where
  pendingPermissions : List (String × PendEntry)
  autoApproveAll : Bool
  consecutiveToolErrors : Nat
  sessionId : Option String

/-- MAX_TOOL_ERROR_RETRIES from claude.ts line 190. -/
def MAX_TOOL_ERROR_RETRIES : Nat := 20

/-- A fresh ClaudeProcess before any message arrived. -/
def initClaudeState : ClaudeState :=
  { pendingPermissions := [], autoApproveAll := false,
    consecutiveToolErrors := 0, sessionId := none }

/-- Outcome of ClaudeProcess.resolvePermission: either the returned
    promise is resolved at once with a decision, or the request is
    parked in the registry waiting for the user. -/
inductive ResolveOutcome where
  | immediate (d : PermDecision)
  | parked

/-- Result of one resolvePermission call: outcome, updated state, and
    whether the onPermissionRequest callback of the caller was invoked. -/
structure ResolveStep where
  outcome : ResolveOutcome
  st : ClaudeState
  notifiedCaller : Bool

/-- ClaudeProcess.resolvePermission (claude.ts lines 421-468): auto
    approve safe tools, then honour the turn-scoped auto-approve-all
    flag for every tool except AskUserQuestion, otherwise park the
    request and notify the caller. -/
def resolvePermission (st : ClaudeState) (requestId toolName : String) (input : JSVal)
    (now : Nat) : ResolveStep :=
  if shouldAutoApprove toolName input then
    { outcome := .immediate (.allow (jsOr input (.obj []))), st := st, notifiedCaller := false }
  else if st.autoApproveAll && toolName != "AskUserQuestion" then
    { outcome := .immediate (.allow (jsOr input (.obj []))), st := st, notifiedCaller := false }
  else
    let entry : PendEntry :=
      { requestId := requestId, toolName := toolName, input := input,
        createdAt := now, hasResolveProp := true }
    { outcome := .parked,
      st := { st with pendingPermissions := mapSet st.pendingPermissions requestId entry },
      notifiedCaller := true }

/-- Result of an approvePermission / denyPermission call: the returned
    Bool, the updated state, and the decision passed to the stored
    resolve continuation when one was invoked (the resolved promise is
    what makes handleControlRequest emit a control_response frame, so
    resolvedWith = none also means no protocol frame is emitted). -/
structure ResolutionResult where
  returned : Bool
  st : ClaudeState
  resolvedWith : Option PermDecision

/-- ClaudeProcess.approvePermission (claude.ts lines 510-520). -/
def approvePermission (st : ClaudeState) (requestId : String)
    (updatedInput : Option JSVal) : ResolutionResult :=
  match mapGet st.pendingPermissions requestId with
  | none => { returned := false, st := st, resolvedWith := none }
  | some perm =>
    { returned := true,
      st := { st with pendingPermissions := mapDelete st.pendingPermissions requestId },
      resolvedWith :=
        some (.allow (jsOr (match updatedInput with | some u => u | none => .undef)
                           (jsOr perm.input (.obj [])))) }

/-- ClaudeProcess.denyPermission (claude.ts lines 523-533). -/
def denyPermission (st : ClaudeState) (requestId : String)
    (reason : Option String) : ResolutionResult :=
  match mapGet st.pendingPermissions requestId with
  | none => { returned := false, st := st, resolvedWith := none }
  | some _ =>
    { returned := true,
      st := { st with pendingPermissions := mapDelete st.pendingPermissions requestId },
      resolvedWith :=
        some (.deny (match reason with
                     | some r => if r == "" then "用户拒绝了此操作" else r
                     | none => "用户拒绝了此操作")) }

/-- ClaudeProcess.approveAll (claude.ts lines 536-543): set the
    auto-approve-all flag, then approve every snapshotted pending
    request, counting successes. -/
def approveAll (st : ClaudeState) : Nat × ClaudeState :=
  let st1 := { st with autoApproveAll := true }
  (st1.pendingPermissions.map (fun kv => kv.1)).foldl
    (fun acc rid =>
      let r := approvePermission acc.2 rid none
      (if r.returned then acc.1 + 1 else acc.1, r.st))
    (0, st1)

/-- ClaudeProcess.getPendingPermissions (claude.ts lines 555-557):
    the spread of pendingPermissions.values() returns the stored entry
    objects themselves. -/
def getPendingPermissions (st : ClaudeState) : List PendEntry :=
  st.pendingPermissions.map (fun kv => kv.2)

-- ─── Consumer loop of ClaudeProcess (claude.ts lines 327-371) ────────

/-- One content block of a stdout message (only the fields the consumer
    loop inspects). -/
structure MsgBlock where
  type : String
  is_error : Option Bool

/-- The content of a message: a plain string or an array of blocks
    (Array.isArray distinguishes the two). -/
inductive MsgContent where
  | str (s : String)
  | arr (blocks : List MsgBlock)

/-- A queued stdout message as consumed by consumeMessages (only the
    fields the loop inspects). -/
structure Msg where
  type : String
  content : Option MsgContent
  session_id : Option String

/-- Truthiness of an optional string field. -/
def truthyS : Option String → Bool
  | none => false
  | some s => s != ""

/-- Effects of processing one message: updated state, number of
    interrupt control requests written, number of onLoopDetected
    invocations, and whether the message was forwarded to onMessage. -/
structure StepOut where
  st : ClaudeState
  interrupts : Nat
  loopNotices : Nat
  forwarded : Bool

/-- The type = result branch of the loop: reset the error counter and
    the turn-scoped auto-approve-all flag (claude.ts lines 361-364). -/
def resultReset (m : Msg) (st : ClaudeState) : ClaudeState :=
  if m.type == "result" then
    { st with consecutiveToolErrors := 0, autoApproveAll := false }
  else st

/-- The session-id update of the loop (claude.ts lines 334-336). -/
def sysUpdate (m : Msg) (st : ClaudeState) : ClaudeState :=
  if m.type == "system" && truthyS m.session_id then
    { st with sessionId := m.session_id }
  else st

/-- The tool-error condition of the loop body (claude.ts lines
    340-345): the filtered tool_result blocks are non-empty and every
    one of them is flagged as an error. -/
def allToolErrors (blocks : List MsgBlock) : Bool :=
  !(blocks.filter (fun b => b.type == "tool_result")).isEmpty &&
    (blocks.filter (fun b => b.type == "tool_result")).all (fun b => b.is_error == some true)

/-- The body of the for-await loop of ClaudeProcess.consumeMessages
    (claude.ts lines 329-366) for one message, assuming a live child:
    record the session id of system messages, run tool-error loop
    detection on user messages whose content is a block array (on
    reaching MAX_TOOL_ERROR_RETRIES: send one interrupt, reset the
    counter, notify once, and continue without forwarding), and reset
    the counter and auto-approve-all on result messages. -/
def consumeStep (st0 : ClaudeState) (m : Msg) : StepOut :=
  let st1 := sysUpdate m st0
  match (if m.type == "user" then m.content else none) with
  | some (.arr blocks) =>
    if allToolErrors blocks then
      if st1.consecutiveToolErrors + 1 ≥ MAX_TOOL_ERROR_RETRIES then
        { st := { st1 with consecutiveToolErrors := 0 },
          interrupts := 1, loopNotices := 1, forwarded := false }
      else
        { st := resultReset m { st1 with consecutiveToolErrors := st1.consecutiveToolErrors + 1 },
          interrupts := 0, loopNotices := 0, forwarded := true }
    else
      { st := resultReset m { st1 with consecutiveToolErrors := 0 },
        interrupts := 0, loopNotices := 0, forwarded := true }
  | _ =>
    { st := resultReset m st1, interrupts := 0, loopNotices := 0, forwarded := true }

/-- Accumulated effects of consuming a list of messages in order. -/
structure RunOut where
  st : ClaudeState
  interrupts : Nat
  loopNotices : Nat

/-- Consume a list of messages, accumulating interrupts and loop
    notifications. -/
def consumeRun (st : ClaudeState) : List Msg → RunOut
  | [] => { st := st, interrupts := 0, loopNotices := 0 }
  | m :: rest =>
    let o := consumeStep st m
    let r := consumeRun o.st rest
    { st := r.st, interrupts := o.interrupts + r.interrupts,
      loopNotices := o.loopNotices + r.loopNotices }

/-- A user message whose content is a block array containing at least
    one tool_result block, all of whose tool_result blocks are errors:
    exactly the condition driving the consecutive-error counter up. -/
def isAllErrorTurn (m : Msg) : Bool :=
  m.type == "user" &&
    (match m.content with
     | some (.arr blocks) => allToolErrors blocks
     | _ => false)

-- ─── CodexProcess state (codex.ts) ───────────────────────────────────

/-- The mutable per-session fields of CodexProcess read and written by
    send and the permission workflow. -/
structure CodexState where
  alive : Bool
  connected : Bool
  sessionId : Option String
  conversationId : Option String
  autoApproveAll : Bool
  pendingPermissions : List (String × PendEntry)

/-- A content block of a user message (agent.ts): text or inline image. -/
inductive ContentBlock where
  | text (t : String)
  | image (mediaType data : String)

/-- The argument of AgentProcess.send: plain text or a block list. -/
inductive SendContent where
  | str (s : String)
  | blocks (bs : List ContentBlock)

/-- An outbound MCP tool call issued by CodexProcess.sendAsync: the
    first send starts a conversation, later sends continue it. -/
inductive RpcCall where
  | start (prompt : String)
  | cont (sessionId conversationId prompt : String)

/-- An observable effect of CodexProcess.send towards the caller:
    a thrown exception or an error-kind output event. -/
inductive SendEvt where
  | thrown (msg : String)
  | errorEvent (text : String)

/-- The text parts of a block list, as filtered by CodexProcess.send. -/
def textParts (bs : List ContentBlock) : List String :=
  bs.filterMap (fun b => match b with | .text t => some t | .image _ _ => none)

/-- JavaScript a || b on optional strings (empty string is falsy). -/
def jsOrS (a : Option String) (b : String) : String :=
  match a with
  | some s => if s == "" then b else s
  | none => b

/-- CodexProcess.send plus the call-issuing prefix of sendAsync
    (codex.ts lines 130-154 and 275-335): throw when not alive; for a
    block list join the text parts with a newline and emit one error
    event without any call when the joined text is empty; otherwise
    issue the start or continue call (an unconnected client makes
    sendAsync throw, surfaced as an error event).  Returns the events
    emitted to the caller and the outbound call, if any. -/
def codexSend (st : CodexState) (content : SendContent) :
    List SendEvt × Option RpcCall :=
  if !st.alive then
    ([.thrown "Codex process not running"], none)
  else
    let proceed : String → List SendEvt × Option RpcCall := fun text =>
      if !st.connected then
        ([.errorEvent "发送失败: Not connected"], none)
      else
        match st.sessionId with
        | none => ([], some (.start text))
        | some sid => ([], some (.cont sid (jsOrS st.conversationId sid) text))
    match content with
    | .str s => proceed s
    | .blocks bs =>
      let text := String.intercalate "\n" (textParts bs)
      if text == "" then
        ([.errorEvent "Codex 不支持图片消息，请发送文本。"], none)
      else
        proceed text

/-- The decision a resolved Codex elicitation reply carries. -/
inductive CodexDecision where
  | approved
  | denied

/-- Result of a CodexProcess.approvePermission / denyPermission call. -/
structure CodexResolutionResult where
  returned : Bool
  st : CodexState
  resolvedWith : Option CodexDecision

/-- CodexProcess.approvePermission (codex.ts lines 156-163). -/
def codexApprovePermission (st : CodexState) (requestId : String) :
    CodexResolutionResult :=
  match mapGet st.pendingPermissions requestId with
  | none => { returned := false, st := st, resolvedWith := none }
  | some _ =>
    { returned := true,
      st := { st with pendingPermissions := mapDelete st.pendingPermissions requestId },
      resolvedWith := some .approved }

/-- CodexProcess.denyPermission (codex.ts lines 165-172). -/
def codexDenyPermission (st : CodexState) (requestId : String) :
    CodexResolutionResult :=
  match mapGet st.pendingPermissions requestId with
  | none => { returned := false, st := st, resolvedWith := none }
  | some _ =>
    { returned := true,
      st := { st with pendingPermissions := mapDelete st.pendingPermissions requestId },
      resolvedWith := some .denied }

/-- CodexProcess.getPendingPermissions (codex.ts lines 191-193): the
    destructuring map strips the resolve property from every returned
    entry, keeping the other fields. -/
def codexGetPendingPermissions (st : CodexState) : List PendEntry :=
  st.pendingPermissions.map (fun kv => { kv.2 with hasResolveProp := false })

-- ─── Identifier extraction of CodexProcess (codex.ts lines 499-517) ──

/-- The identifier-bearing fields of the meta object of a call
    response. -/
structure RespMeta where
  sessionId : Option String
  conversationId : Option String

/-- An item of the content array of a call response. -/
structure RespItem where
  sessionId : Option String
  conversationId : Option String

/-- The identifier-bearing shape of an MCP call response. -/
structure CodexResponse where
  meta : Option RespMeta
  sessionId : Option String
  conversationId : Option String
  content : Option (List RespItem)

/-- One iteration of the content scan inside extractIdentifiers: fill
    an identifier from the item only while the retained one is still
    falsy. -/
def fillFromItem (acc : Option String × Option String) (item : RespItem) :
    Option String × Option String :=
  (if !truthyS acc.1 && truthyS item.sessionId then item.sessionId else acc.1,
   if !truthyS acc.2 && truthyS item.conversationId then item.conversationId else acc.2)

/-- CodexProcess.extractIdentifiers, acting on the pair of retained
    identifiers (this.sessionId, this.conversationId): prefer a truthy
    meta identifier, else a truthy top-level identifier, else keep the
    current value; then scan content items, filling an identifier only
    while the retained one is still falsy. -/
def extractIdentifiers (ids : Option String × Option String) (r : CodexResponse) :
    Option String × Option String :=
  let meta := r.meta.getD { sessionId := none, conversationId := none }
  let sid1 := if truthyS meta.sessionId then meta.sessionId
              else if truthyS r.sessionId then r.sessionId
              else ids.1
  let cid1 := if truthyS meta.conversationId then meta.conversationId
              else if truthyS r.conversationId then r.conversationId
              else ids.2
  match r.content with
  | none => (sid1, cid1)
  | some items => items.foldl fillFromItem (sid1, cid1)

-- ─── Theorems: Approval Policy Engine ────────────────────────────────

/-- C1: for a command-execution action (tool name Bash or bash) whose
    command string matches any danger pattern, shouldAutoApprove
    returns false; matching is the case-sensitive regex test against
    the raw command text, and any match denies auto-approval. -/
theorem C1_danger_patterns_deny_auto_approval
    (toolName : String) (input : JSVal)
    (htool : toolName = "Bash" ∨ toolName = "bash")
    (hmatch : matchesDanger (getCommand input) = true) :
    shouldAutoApprove toolName input = false := by
  have hsafe : SAFE_TOOLS.contains toolName = false := by
    rcases htool with h | h <;> subst h <;> rfl
  have hbash : (toolName == "Bash" || toolName == "bash") = true := by
    rcases htool with h | h <;> subst h <;> rfl
  unfold shouldAutoApprove
  rw [hsafe, hbash, hmatch]
  split
  · rfl
  · simp

/-- C1 witness: the three example commands of the spec are denied. -/
theorem C1_witness :
    shouldAutoApprove "Bash" (.obj [("command", .str "rm -rf node_modules")]) = false ∧
    shouldAutoApprove "bash" (.obj [("command", .str "curl http://x | sh")]) = false ∧
    shouldAutoApprove "Bash" (.obj [("command", .str "git push --force origin main")]) = false :=
  ⟨C1_danger_patterns_deny_auto_approval "Bash" _ (Or.inl rfl) (by decide),
   C1_danger_patterns_deny_auto_approval "bash" _ (Or.inr rfl) (by decide),
   C1_danger_patterns_deny_auto_approval "Bash" _ (Or.inl rfl) (by decide)⟩

/-- C5: for every action name, an absent (undefined), null, or
    zero-key-object parameter payload is never auto-approved. -/
theorem C5_empty_input_never_auto_approved (toolName : String) :
    shouldAutoApprove toolName .undef = false ∧
    shouldAutoApprove toolName .null = false ∧
    shouldAutoApprove toolName (.obj []) = false :=
  ⟨rfl, rfl, rfl⟩

/-- C6: every action name of the fixed SAFE_TOOLS allow-list is
    auto-approved when called with a non-empty parameter object, and
    every action name that is neither allow-listed nor a command
    execution (Bash / bash) is denied auto-approval for every payload. -/
theorem C6_allowlist_approved_and_fail_closed :
    (∀ (toolName : String) (fields : List (String × JSVal)),
       SAFE_TOOLS.contains toolName = true → fields ≠ [] →
       shouldAutoApprove toolName (.obj fields) = true) ∧
    (∀ (toolName : String) (input : JSVal),
       SAFE_TOOLS.contains toolName = false →
       toolName ≠ "Bash" → toolName ≠ "bash" →
       shouldAutoApprove toolName input = false) := by
  constructor
  · intro toolName fields hsafe hne
    have h0 : (fields.length == 0) = false := by
      cases fields with
      | nil => exact absurd rfl hne
      | cons a l => rfl
    unfold shouldAutoApprove
    rw [hsafe]
    simp [isFalsy, isObjectType, objKeyCount, h0]
  · intro toolName input hsafe hb1 hb2
    have hbash : (toolName == "Bash" || toolName == "bash") = false := by
      simp [hb1, hb2]
    unfold shouldAutoApprove
    rw [hsafe, hbash]
    split <;> simp

/-- C6 witness: a safe tool with non-empty parameters is approved; an
    unknown tool is denied. -/
theorem C6_witness :
    shouldAutoApprove "Read" (.obj [("file_path", .str "/tmp/a")]) = true ∧
    shouldAutoApprove "Write" (.obj [("file_path", .str "/tmp/a")]) = false :=
  ⟨C6_allowlist_approved_and_fail_closed.1 "Read" _ rfl (List.cons_ne_nil _ _),
   C6_allowlist_approved_and_fail_closed.2 "Write" _ rfl (by decide) (by decide)⟩

-- ─── Registry lemmas ─────────────────────────────────────────────────

theorem mapGet_mapSet_self (m : List (String × PendEntry)) (k : String) (v : PendEntry) :
    mapGet (mapSet m k v) k = some v := by
  induction m with
  | nil => simp [mapSet, mapGet]
  | cons kv rest ih =>
    unfold mapSet
    by_cases h : kv.1 == k
    · rw [if_pos h]
      simp [mapGet]
    · rw [if_neg h]
      unfold mapGet
      rw [if_neg h]
      exact ih

theorem mapGet_mapDelete_self (m : List (String × PendEntry)) (k : String) :
    mapGet (mapDelete m k) k = none := by
  induction m with
  | nil => rfl
  | cons kv rest ih =>
    unfold mapDelete at ih ⊢
    by_cases h : kv.1 == k
    · rw [List.filter_cons]
      simp only [bne, h, Bool.not_true, if_neg]
      simpa using ih
    · rw [List.filter_cons]
      have hb : (kv.1 != k) = true := by simp [bne, h]
      rw [if_pos hb]
      unfold mapGet
      rw [if_neg h]
      simpa using ih

theorem approvePermission_autoApproveAll (st : ClaudeState) (rid : String)
    (u : Option JSVal) : (approvePermission st rid u).st.autoApproveAll = st.autoApproveAll := by
  unfold approvePermission
  cases mapGet st.pendingPermissions rid <;> rfl

/-- The auto-approve-all flag is set by approveAll and not cleared by
    the per-request approvals it performs. -/
theorem approveAll_sets_flag (st : ClaudeState) :
    (approveAll st).2.autoApproveAll = true := by
  unfold approveAll
  have hgen : ∀ (ks : List String) (acc : Nat × ClaudeState),
      acc.2.autoApproveAll = true →
      (ks.foldl (fun acc rid =>
        let r := approvePermission acc.2 rid none
        (if r.returned then acc.1 + 1 else acc.1, r.st)) acc).2.autoApproveAll = true := by
    intro ks
    induction ks with
    | nil => intro acc h; exact h
    | cons k rest ih =>
      intro acc h
      refine ih _ ?_
      simpa [approvePermission_autoApproveAll] using h
  exact hgen _ (0, { st with autoApproveAll := true }) rfl

-- ─── Theorems: approve-all window (C2) ───────────────────────────────

/-- C2: after approveAll sets the turn-scoped auto-approve-all flag,
    a new incoming approval request for any tool other than
    AskUserQuestion is resolved as allowed at once, without notifying
    the caller and without touching the registry; a new AskUserQuestion
    request in the same window is parked in the registry and the caller
    is notified. -/
theorem C2_approveAll_window
    (st : ClaudeState) (requestId toolName : String) (input : JSVal) (now : Nat)
    (hq : toolName ≠ "AskUserQuestion") :
    (resolvePermission (approveAll st).2 requestId toolName input now =
       { outcome := .immediate (.allow (jsOr input (.obj []))),
         st := (approveAll st).2, notifiedCaller := false }) ∧
    ((resolvePermission (approveAll st).2 requestId "AskUserQuestion" input now).outcome =
       .parked ∧
     (resolvePermission (approveAll st).2 requestId "AskUserQuestion" input now).notifiedCaller =
       true ∧
     mapGet (resolvePermission (approveAll st).2 requestId "AskUserQuestion"
         input now).st.pendingPermissions requestId =
       some { requestId := requestId, toolName := "AskUserQuestion", input := input,
              createdAt := now, hasResolveProp := true }) := by
  have hflag := approveAll_sets_flag st
  have hquestion : ∀ inp : JSVal, shouldAutoApprove "AskUserQuestion" inp = false := by
    intro inp
    unfold shouldAutoApprove
    split <;> rfl
  constructor
  · unfold resolvePermission
    have hbeq : (toolName != "AskUserQuestion") = true := by simp [bne, hq]
    rw [hflag, hbeq]
    split
    · rfl
    · rfl
  · unfold resolvePermission
    rw [hquestion input]
    simp only [Bool.false_eq_true, if_false, bne_self_eq_false, Bool.and_false]
    exact ⟨trivial, trivial, mapGet_mapSet_self _ _ _⟩

/-- C2 witness: in the window after approveAll, a Write request is
    allowed silently while an AskUserQuestion request parks. -/
theorem C2_witness :
    resolvePermission (approveAll initClaudeState).2 "req-1" "Write"
        (.obj [("file_path", .str "/tmp/a")]) 7 =
      { outcome := .immediate (.allow (.obj [("file_path", .str "/tmp/a")])),
        st := (approveAll initClaudeState).2, notifiedCaller := false } :=
  (C2_approveAll_window initClaudeState "req-1" "Write"
    (.obj [("file_path", .str "/tmp/a")]) 7 (by decide)).1

-- ─── Theorems: idempotent resolution (C3) ────────────────────────────

theorem approvePermission_found (st : ClaudeState) (rid : String) (u : Option JSVal)
    (e : PendEntry) (he : mapGet st.pendingPermissions rid = some e) :
    approvePermission st rid u =
      { returned := true,
        st := { st with pendingPermissions := mapDelete st.pendingPermissions rid },
        resolvedWith := some (.allow (jsOr (match u with | some x => x | none => .undef)
                                           (jsOr e.input (.obj [])))) } := by
  unfold approvePermission
  rw [he]

theorem approvePermission_notFound (st : ClaudeState) (rid : String) (u : Option JSVal)
    (h : mapGet st.pendingPermissions rid = none) :
    approvePermission st rid u = { returned := false, st := st, resolvedWith := none } := by
  unfold approvePermission
  rw [h]

theorem denyPermission_found (st : ClaudeState) (rid : String) (r : Option String)
    (e : PendEntry) (he : mapGet st.pendingPermissions rid = some e) :
    denyPermission st rid r =
      { returned := true,
        st := { st with pendingPermissions := mapDelete st.pendingPermissions rid },
        resolvedWith :=
          some (.deny (match r with
                       | some x => if x == "" then "用户拒绝了此操作" else x
                       | none => "用户拒绝了此操作")) } := by
  unfold denyPermission
  rw [he]

theorem denyPermission_notFound (st : ClaudeState) (rid : String) (r : Option String)
    (h : mapGet st.pendingPermissions rid = none) :
    denyPermission st rid r = { returned := false, st := st, resolvedWith := none } := by
  unfold denyPermission
  rw [h]

theorem codexApprovePermission_notFound (st : CodexState) (rid : String)
    (h : mapGet st.pendingPermissions rid = none) :
    codexApprovePermission st rid = { returned := false, st := st, resolvedWith := none } := by
  unfold codexApprovePermission
  rw [h]

theorem codexDenyPermission_notFound (st : CodexState) (rid : String)
    (h : mapGet st.pendingPermissions rid = none) :
    codexDenyPermission st rid = { returned := false, st := st, resolvedWith := none } := by
  unfold codexDenyPermission
  rw [h]

/-- C3: resolving a pending request twice succeeds the first time
    (removing the entry) and reports not-found the second time without
    invoking a continuation or emitting a protocol frame, for approve
    and deny on both backends; resolving an unknown identifier is a
    no-op returning false. -/
theorem C3_resolution_idempotent
    (stc : ClaudeState) (stx : CodexState) (rid : String)
    (u : Option JSVal) (reason : Option String)
    (hc : (mapGet stc.pendingPermissions rid).isSome = true)
    (hx : (mapGet stx.pendingPermissions rid).isSome = true) :
    ((approvePermission stc rid u).returned = true ∧
     mapGet (approvePermission stc rid u).st.pendingPermissions rid = none ∧
     approvePermission (approvePermission stc rid u).st rid u =
       { returned := false, st := (approvePermission stc rid u).st, resolvedWith := none }) ∧
    ((denyPermission stc rid reason).returned = true ∧
     denyPermission (denyPermission stc rid reason).st rid reason =
       { returned := false, st := (denyPermission stc rid reason).st, resolvedWith := none }) ∧
    ((codexApprovePermission stx rid).returned = true ∧
     mapGet (codexApprovePermission stx rid).st.pendingPermissions rid = none ∧
     codexApprovePermission (codexApprovePermission stx rid).st rid =
       { returned := false, st := (codexApprovePermission stx rid).st,
         resolvedWith := none }) ∧
    ((codexDenyPermission stx rid).returned = true ∧
     codexDenyPermission (codexDenyPermission stx rid).st rid =
       { returned := false, st := (codexDenyPermission stx rid).st, resolvedWith := none }) ∧
    (∀ st2 : ClaudeState, mapGet st2.pendingPermissions rid = none →
       approvePermission st2 rid u = { returned := false, st := st2, resolvedWith := none } ∧
       denyPermission st2 rid reason =
         { returned := false, st := st2, resolvedWith := none }) ∧
    (∀ stx2 : CodexState, mapGet stx2.pendingPermissions rid = none →
       codexApprovePermission stx2 rid =
         { returned := false, st := stx2, resolvedWith := none } ∧
       codexDenyPermission stx2 rid =
         { returned := false, st := stx2, resolvedWith := none }) := by
  obtain ⟨e, he⟩ := Option.isSome_iff_exists.mp hc
  obtain ⟨f, hf⟩ := Option.isSome_iff_exists.mp hx
  have hdelc : mapGet (mapDelete stc.pendingPermissions rid) rid = none :=
    mapGet_mapDelete_self _ _
  have hdelx : mapGet (mapDelete stx.pendingPermissions rid) rid = none :=
    mapGet_mapDelete_self _ _
  refine ⟨⟨?_, ?_, ?_⟩, ⟨?_, ?_⟩, ⟨?_, ?_, ?_⟩, ⟨?_, ?_⟩, ?_, ?_⟩
  · rw [approvePermission_found stc rid u e he]
  · rw [approvePermission_found stc rid u e he]
    exact hdelc
  · rw [approvePermission_found stc rid u e he]
    exact approvePermission_notFound _ _ _ hdelc
  · rw [denyPermission_found stc rid reason e he]
  · rw [denyPermission_found stc rid reason e he]
    exact denyPermission_notFound _ _ _ hdelc
  · unfold codexApprovePermission
    rw [hf]
  · unfold codexApprovePermission
    rw [hf]
    exact hdelx
  · rw [show codexApprovePermission stx rid =
      { returned := true,
        st := { stx with pendingPermissions := mapDelete stx.pendingPermissions rid },
        resolvedWith := some .approved } from by unfold codexApprovePermission; rw [hf]]
    exact codexApprovePermission_notFound
      { stx with pendingPermissions := mapDelete stx.pendingPermissions rid } rid hdelx
  · unfold codexDenyPermission
    rw [hf]
  · rw [show codexDenyPermission stx rid =
      { returned := true,
        st := { stx with pendingPermissions := mapDelete stx.pendingPermissions rid },
        resolvedWith := some .denied } from by unfold codexDenyPermission; rw [hf]]
    exact codexDenyPermission_notFound
      { stx with pendingPermissions := mapDelete stx.pendingPermissions rid } rid hdelx
  · intro st2 h2
    exact ⟨approvePermission_notFound _ _ _ h2, denyPermission_notFound _ _ _ h2⟩
  · intro stx2 h2
    exact ⟨codexApprovePermission_notFound _ _ h2, codexDenyPermission_notFound _ _ h2⟩

/-- C3 witness: a registry holding one request with identifier p1 on
    each backend. -/
theorem C3_witness :
    (approvePermission
      { pendingPermissions :=
          [("p1", { requestId := "p1", toolName := "Bash",
                    input := JSVal.obj [("command", JSVal.str "make")],
                    createdAt := 3, hasResolveProp := true })],
        autoApproveAll := false, consecutiveToolErrors := 0, sessionId := none }
      "p1" none).returned = true :=
  (C3_resolution_idempotent
    { pendingPermissions :=
        [("p1", { requestId := "p1", toolName := "Bash",
                  input := JSVal.obj [("command", JSVal.str "make")],
                  createdAt := 3, hasResolveProp := true })],
      autoApproveAll := false, consecutiveToolErrors := 0, sessionId := none }
    { alive := true, connected := true, sessionId := none, conversationId := none,
      autoApproveAll := false,
      pendingPermissions :=
        [("p1", { requestId := "p1", toolName := "CodexBash",
                  input := JSVal.obj [("command", JSVal.str "make")],
                  createdAt := 4, hasResolveProp := true })] }
    "p1" none none rfl rfl).1.1

-- ─── Theorems: loop detector (C4, C10) ───────────────────────────────

/-- On an all-error turn the consumer either increments the counter
    (below the threshold) or emits one interrupt, one loop notice, and
    resets the counter. -/
theorem consumeStep_allError (st : ClaudeState) (m : Msg) (h : isAllErrorTurn m = true) :
    consumeStep st m =
      if st.consecutiveToolErrors + 1 ≥ MAX_TOOL_ERROR_RETRIES then
        { st := { st with consecutiveToolErrors := 0 },
          interrupts := 1, loopNotices := 1, forwarded := false }
      else
        { st := { st with consecutiveToolErrors := st.consecutiveToolErrors + 1 },
          interrupts := 0, loopNotices := 0, forwarded := true } := by
  unfold isAllErrorTurn at h
  rw [Bool.and_eq_true] at h
  obtain ⟨ht, hc⟩ := h
  have htype : m.type = "user" := by simpa using ht
  cases hmc : m.content with
  | none => rw [hmc] at hc; simp at hc
  | some mc =>
    cases mc with
    | str s => rw [hmc] at hc; simp at hc
    | arr blocks =>
      rw [hmc] at hc
      have hc2 : allToolErrors blocks = true := hc
      by_cases hge : st.consecutiveToolErrors + 1 ≥ MAX_TOOL_ERROR_RETRIES
      · simp [consumeStep, sysUpdate, resultReset, htype, hmc, hc2, hge]
      · simp [consumeStep, sysUpdate, resultReset, htype, hmc, hc2, hge]

/-- Splitting a consumer run over list concatenation. -/
theorem consumeRun_append (l1 l2 : List Msg) : ∀ st : ClaudeState,
    consumeRun st (l1 ++ l2) =
      { st := (consumeRun (consumeRun st l1).st l2).st,
        interrupts :=
          (consumeRun st l1).interrupts + (consumeRun (consumeRun st l1).st l2).interrupts,
        loopNotices :=
          (consumeRun st l1).loopNotices + (consumeRun (consumeRun st l1).st l2).loopNotices } := by
  induction l1 with
  | nil => intro st; simp [consumeRun]
  | cons m rest ih =>
    intro st
    simp only [List.cons_append, consumeRun, List.append_eq]
    rw [ih]
    simp [Nat.add_assoc]

/-- Below the threshold, k consecutive all-error turns just add k to
    the counter and emit nothing. -/
theorem consumeRun_allError_upto (m : Msg) (h : isAllErrorTurn m = true) :
    ∀ (k : Nat) (st : ClaudeState),
      st.consecutiveToolErrors + k < MAX_TOOL_ERROR_RETRIES →
      consumeRun st (List.replicate k m) =
        { st := { st with consecutiveToolErrors := st.consecutiveToolErrors + k },
          interrupts := 0, loopNotices := 0 } := by
  intro k
  induction k with
  | zero => intro st hlt; simp [consumeRun]
  | succ n ih =>
    intro st hlt
    have hstep := consumeStep_allError st m h
    rw [if_neg (by simp only [MAX_TOOL_ERROR_RETRIES] at hlt ⊢; omega)] at hstep
    rw [List.replicate_succ]
    simp only [consumeRun, hstep]
    rw [ih { st with consecutiveToolErrors := st.consecutiveToolErrors + 1 }
      (by simp only [MAX_TOOL_ERROR_RETRIES] at hlt ⊢; omega)]
    have harith : st.consecutiveToolErrors + 1 + n = st.consecutiveToolErrors + (n + 1) := by
      omega
    simp [harith]

/-- From a zeroed counter, exactly MAX_TOOL_ERROR_RETRIES consecutive
    all-error turns produce one interrupt and one loop notice and leave
    the counter zeroed again. -/
theorem consumeRun_allError_cycle (m : Msg) (h : isAllErrorTurn m = true)
    (st : ClaudeState) (h0 : st.consecutiveToolErrors = 0) :
    consumeRun st (List.replicate MAX_TOOL_ERROR_RETRIES m) =
      { st := { st with consecutiveToolErrors := 0 }, interrupts := 1, loopNotices := 1 } := by
  have hsplit : List.replicate MAX_TOOL_ERROR_RETRIES m =
      List.replicate 19 m ++ [m] := by
    simp only [MAX_TOOL_ERROR_RETRIES]
    rw [← List.replicate_succ']
  rw [hsplit, consumeRun_append]
  rw [consumeRun_allError_upto m h 19 st (by simp only [MAX_TOOL_ERROR_RETRIES]; omega)]
  have hstep := consumeStep_allError
    { st with consecutiveToolErrors := st.consecutiveToolErrors + 19 } m h
  rw [if_pos (by simp only [MAX_TOOL_ERROR_RETRIES]; omega)] at hstep
  simp only [consumeRun, hstep]

/-- C4: with the counter at zero, 20 consecutive all-error turns emit
    exactly one interrupt and exactly one loop-detected notification
    and reset the counter; a 21st all-error turn does not add a second
    one, and only after 40 such turns does a second interrupt and
    notification appear; a user turn whose tool results are not all
    errors resets the counter to zero. -/
theorem C4_loop_threshold (m : Msg) (st : ClaudeState)
    (herr : isAllErrorTurn m = true) (h0 : st.consecutiveToolErrors = 0) :
    (consumeRun st (List.replicate 20 m)).interrupts = 1 ∧
    (consumeRun st (List.replicate 20 m)).loopNotices = 1 ∧
    (consumeRun st (List.replicate 20 m)).st.consecutiveToolErrors = 0 ∧
    (consumeRun st (List.replicate 21 m)).interrupts = 1 ∧
    (consumeRun st (List.replicate 21 m)).loopNotices = 1 ∧
    (consumeRun st (List.replicate 21 m)).st.consecutiveToolErrors = 1 ∧
    (consumeRun st (List.replicate 40 m)).interrupts = 2 ∧
    (consumeRun st (List.replicate 40 m)).loopNotices = 2 ∧
    (∀ (st2 : ClaudeState) (m2 : Msg) (blocks : List MsgBlock),
       m2.type = "user" → m2.content = some (.arr blocks) →
       allToolErrors blocks = false →
       (consumeStep st2 m2).st.consecutiveToolErrors = 0) := by
  have hcycle := consumeRun_allError_cycle m herr st h0
  have h20 : List.replicate 20 m = List.replicate MAX_TOOL_ERROR_RETRIES m := rfl
  have h21 : List.replicate 21 m =
      List.replicate MAX_TOOL_ERROR_RETRIES m ++ List.replicate 1 m := by
    rw [← List.replicate_add]
    norm_num [MAX_TOOL_ERROR_RETRIES]
  have h40 : List.replicate 40 m =
      List.replicate MAX_TOOL_ERROR_RETRIES m ++ List.replicate MAX_TOOL_ERROR_RETRIES m := by
    rw [← List.replicate_add]
    norm_num [MAX_TOOL_ERROR_RETRIES]
  have hone := consumeRun_allError_upto m herr 1
    { st with consecutiveToolErrors := 0 } (by simp only [MAX_TOOL_ERROR_RETRIES]; omega)
  have hcycle2 := consumeRun_allError_cycle m herr
    { st with consecutiveToolErrors := 0 } rfl
  refine ⟨?_, ?_, ?_, ?_, ?_, ?_, ?_, ?_, ?_⟩
  · rw [h20, hcycle]
  · rw [h20, hcycle]
  · rw [h20, hcycle]
  · rw [h21, consumeRun_append, hcycle, hone]
    try simp
  · rw [h21, consumeRun_append, hcycle, hone]
    try simp
  · rw [h21, consumeRun_append, hcycle, hone]
    try simp
  · rw [h40, consumeRun_append, hcycle, hcycle2]
    try simp
  · rw [h40, consumeRun_append, hcycle, hcycle2]
    try simp
  · intro st2 m2 blocks ht2 hc2 hno
    simp [consumeStep, sysUpdate, resultReset, ht2, hc2, hno]

/-- C4 witness: a concrete all-error tool-result message from a fresh
    session. -/
theorem C4_witness :
    (consumeRun initClaudeState (List.replicate 20
      { type := "user",
        content := some (.arr [{ type := "tool_result", is_error := some true }]),
        session_id := none })).interrupts = 1 :=
  (C4_loop_threshold
    { type := "user",
      content := some (.arr [{ type := "tool_result", is_error := some true }]),
      session_id := none }
    initClaudeState (by decide) rfl).1

/-- C10: starting from a fresh session, after the consumer processes
    any sequence of messages the consecutive-tool-error counter is
    strictly below the threshold MAX_TOOL_ERROR_RETRIES. -/
theorem C10_counter_always_below_threshold (msgs : List Msg) :
    (consumeRun initClaudeState msgs).st.consecutiveToolErrors < MAX_TOOL_ERROR_RETRIES := by
  have hstep : ∀ (st : ClaudeState) (m : Msg),
      st.consecutiveToolErrors < MAX_TOOL_ERROR_RETRIES →
      (consumeStep st m).st.consecutiveToolErrors < MAX_TOOL_ERROR_RETRIES := by
    intro st m hlt
    have hsys : (sysUpdate m st).consecutiveToolErrors = st.consecutiveToolErrors := by
      unfold sysUpdate
      split <;> rfl
    have hres : ∀ st2 : ClaudeState,
        (resultReset m st2).consecutiveToolErrors ≤ st2.consecutiveToolErrors := by
      intro st2
      unfold resultReset
      split
      · exact Nat.zero_le _
      · exact Nat.le_refl _
    unfold consumeStep
    dsimp only
    split
    · split
      · split
        · simp only [MAX_TOOL_ERROR_RETRIES]
          omega
        next hge =>
          refine Nat.lt_of_le_of_lt (hres _) ?_
          simp only [hsys, MAX_TOOL_ERROR_RETRIES] at hge ⊢
          omega
      · refine Nat.lt_of_le_of_lt (hres _) ?_
        simp only [MAX_TOOL_ERROR_RETRIES]
        omega
    · refine Nat.lt_of_le_of_lt (hres _) ?_
      rw [hsys]
      exact hlt
  have hrun : ∀ (l : List Msg) (st : ClaudeState),
      st.consecutiveToolErrors < MAX_TOOL_ERROR_RETRIES →
      (consumeRun st l).st.consecutiveToolErrors < MAX_TOOL_ERROR_RETRIES := by
    intro l
    induction l with
    | nil => intro st h; exact h
    | cons m rest ih =>
      intro st h
      simp only [consumeRun]
      exact ih _ (hstep st m h)
  exact hrun msgs initClaudeState (by simp [initClaudeState, MAX_TOOL_ERROR_RETRIES])

-- ─── Theorems: RPC-backend send (C7) ─────────────────────────────────

/-- C7 counterexample: a block list of two empty text blocks has only
    empty text parts, yet send on a live connected session emits no
    error event and issues an outbound start-conversation call with the
    newline prompt, because the parts are joined with a newline before
    the emptiness test. -/
theorem C7_counterexample :
    (codexSend
      { alive := true, connected := true, sessionId := none, conversationId := none,
        autoApproveAll := false, pendingPermissions := [] }
      (.blocks [.text "", .text ""])).1 = [] ∧
    (codexSend
      { alive := true, connected := true, sessionId := none, conversationId := none,
        autoApproveAll := false, pendingPermissions := [] }
      (.blocks [.text "", .text ""])).2 = some (.start "\n") :=
  ⟨rfl, rfl⟩

/-- C7 amended: on a live RPC session, sending a block list with no
    text block, or whose single text block is the empty string (so the
    joined text is empty, which is what the code tests), emits exactly
    one error-kind output event and issues no outbound call. -/
theorem C7_empty_text_send_fails_fast (st : CodexState) (bs : List ContentBlock)
    (halive : st.alive = true)
    (htext : textParts bs = [] ∨ textParts bs = [""]) :
    codexSend st (.blocks bs) =
      ([.errorEvent "Codex 不支持图片消息，请发送文本。"], none) := by
  have hjoin : String.intercalate "\n" (textParts bs) = "" := by
    rcases htext with h | h <;> rw [h] <;> rfl
  unfold codexSend
  rw [halive]
  simp [hjoin]

/-- C7 witness: an image-only block list on a live session. -/
theorem C7_witness :
    codexSend
      { alive := true, connected := true, sessionId := none, conversationId := none,
        autoApproveAll := false, pendingPermissions := [] }
      (.blocks [.image "image/png" "iVBORw0KGgo="]) =
      ([.errorEvent "Codex 不支持图片消息，请发送文本。"], none) :=
  C7_empty_text_send_fails_fast _ _ rfl (Or.inl rfl)

-- ─── Theorems: identifier extraction (C8) ────────────────────────────

/-- A content-item scan never overwrites an already-truthy session
    identifier. -/
theorem foldl_fillFromItem_fst (items : List RespItem) :
    ∀ (a b : Option String), truthyS a = true →
      (items.foldl fillFromItem (a, b)).1 = a := by
  induction items with
  | nil => intro a b h; rfl
  | cons it rest ih =>
    intro a b h
    rw [List.foldl_cons]
    have hfst : fillFromItem (a, b) it =
        (a, if !truthyS b && truthyS it.conversationId then it.conversationId else b) := by
      unfold fillFromItem
      simp [h]
    rw [hfst, ih _ _ h]

/-- C8: a truthy session identifier in the call-response metadata is
    retained in preference to top-level and nested content-item values;
    with no metadata, a truthy top-level identifier is retained in
    preference to content-item values. -/
theorem C8_meta_session_id_precedence
    (ids : Option String × Option String) (r : CodexResponse)
    (mrec : RespMeta) (msid : String)
    (hm : r.meta = some mrec) (hs : mrec.sessionId = some msid) (hne : msid ≠ "") :
    (extractIdentifiers ids r).1 = some msid ∧
    (∀ (ids2 : Option String × Option String) (r2 : CodexResponse) (t : String),
       r2.meta = none → r2.sessionId = some t → t ≠ "" →
       (extractIdentifiers ids2 r2).1 = some t) := by
  have htr : ∀ s : String, s ≠ "" → truthyS (some s) = true := by
    intro s hne2
    simp [truthyS, hne2]
  constructor
  · obtain ⟨rm, rsid, rcid, rcont⟩ := r
    simp only at hm
    subst hm
    cases rcont with
    | none => simp [extractIdentifiers, hs, htr msid hne]
    | some items =>
      simp only [extractIdentifiers, Option.getD, hs, htr msid hne, if_true]
      exact foldl_fillFromItem_fst items _ _ (htr msid hne)
  · intro ids2 r2 t hm2 ht2 hne2
    obtain ⟨rm, rsid, rcid, rcont⟩ := r2
    simp only at hm2 ht2
    subst hm2
    subst ht2
    have htn : truthyS none = false := rfl
    cases rcont with
    | none => simp [extractIdentifiers, htn, htr t hne2]
    | some items =>
      simp only [extractIdentifiers, Option.getD, htn, htr t hne2, if_true,
        Bool.false_eq_true, if_false]
      exact foldl_fillFromItem_fst items _ _ (htr t hne2)

/-- C8 witness: a response carrying different identifiers in metadata,
    top level and a content item retains the metadata value; with no
    metadata the top-level value wins over the content item. -/
theorem C8_witness :
    (extractIdentifiers (none, none)
      { meta := some { sessionId := some "sid-meta", conversationId := none },
        sessionId := some "sid-top", conversationId := none,
        content := some [{ sessionId := some "sid-item", conversationId := none }] }).1 =
      some "sid-meta" ∧
    (extractIdentifiers (none, none)
      { meta := none, sessionId := some "sid-top", conversationId := none,
        content := some [{ sessionId := some "sid-item", conversationId := none }] }).1 =
      some "sid-top" :=
  ⟨(C8_meta_session_id_precedence (none, none)
      { meta := some { sessionId := some "sid-meta", conversationId := none },
        sessionId := some "sid-top", conversationId := none,
        content := some [{ sessionId := some "sid-item", conversationId := none }] }
      { sessionId := some "sid-meta", conversationId := none } "sid-meta"
      rfl rfl (by decide)).1,
   (C8_meta_session_id_precedence (none, none)
      { meta := some { sessionId := some "sid-meta", conversationId := none },
        sessionId := some "sid-top", conversationId := none,
        content := some [{ sessionId := some "sid-item", conversationId := none }] }
      { sessionId := some "sid-meta", conversationId := none } "sid-meta"
      rfl rfl (by decide)).2
     (none, none)
     { meta := none, sessionId := some "sid-top", conversationId := none,
       content := some [{ sessionId := some "sid-item", conversationId := none }] }
     "sid-top" rfl rfl (by decide)⟩

-- ─── Theorems: pending snapshot (C9) ─────────────────────────────────

/-- C9 counterexample: after the line-protocol backend parks one
    request, the snapshot getPendingPermissions returns the stored
    entry object itself, which still carries the resolve continuation
    property, so the snapshot is not continuation-free on that
    backend. -/
theorem C9_counterexample :
    (getPendingPermissions
      (resolvePermission initClaudeState "req-9" "Edit"
        (.obj [("file_path", .str "/tmp/f")]) 5).st).map
      (fun e => e.hasResolveProp) = [true] := rfl

/-- C9 amended: listPending reports identifier, action name,
    parameters and creation time of every pending request on both
    backends; the RPC backend strips the resolution continuation from
    every returned entry, while the line-protocol backend returns the
    stored entry objects unchanged, so entries that carry the resolve
    property are exposed as stored. -/
theorem C9_snapshot_shape (stc : ClaudeState) (stx : CodexState) :
    getPendingPermissions stc = stc.pendingPermissions.map (fun kv => kv.2) ∧
    (∀ e, e ∈ codexGetPendingPermissions stx → e.hasResolveProp = false) ∧
    (codexGetPendingPermissions stx).map
        (fun e => (e.requestId, e.toolName, e.input, e.createdAt)) =
      stx.pendingPermissions.map
        (fun kv => (kv.2.requestId, kv.2.toolName, kv.2.input, kv.2.createdAt)) := by
  refine ⟨rfl, ?_, ?_⟩
  · intro e he
    unfold codexGetPendingPermissions at he
    obtain ⟨kv, _, rfl⟩ := List.mem_map.mp he
    rfl
  · unfold codexGetPendingPermissions
    rw [List.map_map]
    rfl

/-- C9 witness: a Codex registry with one stored entry yields a
    stripped snapshot. -/
theorem C9_witness :
    (∀ e, e ∈ codexGetPendingPermissions
      { alive := true, connected := true, sessionId := none, conversationId := none,
        autoApproveAll := false,
        pendingPermissions :=
          [("c1", { requestId := "c1", toolName := "CodexBash",
                    input := JSVal.obj [("command", JSVal.str "ls")],
                    createdAt := 9, hasResolveProp := true })] } →
      e.hasResolveProp = false) :=
  (C9_snapshot_shape initClaudeState
    { alive := true, connected := true, sessionId := none, conversationId := none,
      autoApproveAll := false,
      pendingPermissions :=
        [("c1", { requestId := "c1", toolName := "CodexBash",
                  input := JSVal.obj [("command", JSVal.str "ls")],
                  createdAt := 9, hasResolveProp := true })] }).2.1

end CoderBot
